import Mathlib

/-!
Shallow embedding of the `triton-rs` crate (ABI adapter and safe-handle
layer for a Triton inference-server backend plugin), covering:

* the byte-tensor string codec `decode_string` / `encode_string`
  (`src/triton-rs/src/lib.rs`);
* the model state attachment operations `Model::set_data`,
  `Model::drop_data`, `Model::data::<D>` (`src/triton-rs/src/model.rs`);
* the `call_checked!` error bridge of the ABI shim
  (`src/triton-rs/src/backend.rs`);
* the input buffer access path `Input::raw_buffer`, `Input::buffer`,
  `Input::as_u64` (`src/triton-rs/src/request.rs`).

Machine integers are modelled as `Nat` with explicit `% 2 ^ w` where the
Rust code truncates; a Rust byte buffer is a `List Nat` whose elements are
the byte values.  A Rust function that can exit abnormally is modelled with
an explicit outcome type: `RResult.ok` for `Ok(..)`, `RResult.err` for a
returned `Err(..)`, and `RResult.panic` for a Rust panic (out-of-bounds
indexing, `copy_from_slice` length mismatch, `expect` on a failed
`CString::new`, ...).
-/

/-- Outcome of a Rust function returning `Result<α, Error>`: a returned
`Ok` value, a returned `Err` with its message, or a panic (abnormal exit
that is not a return value at all). -/
inductive RResult (α : Type) where
  | ok (val : α)
  | err (msg : String)
  | panic
deriving DecidableEq, Repr

/-! ## Byte-tensor codec (`src/triton-rs/src/lib.rs`) -/

/-- Value of `u32::from_le_bytes([b0, b1, b2, b3])`. -/
def u32_from_le (b0 b1 b2 b3 : Nat) : Nat :=
  b0 + 256 * b1 + 65536 * b2 + 16777216 * b3

/-- Bytes of `(n as u32).to_le_bytes()`: the Rust `as u32` cast truncates
modulo `2 ^ 32`, then the four little-endian bytes are emitted. -/
def u32_to_le (n : Nat) : List Nat :=
  [n % 4294967296 % 256, n % 4294967296 / 256 % 256,
   n % 4294967296 / 65536 % 256, n % 4294967296 / 16777216 % 256]

/-- UTF-8 encoding of U+FFFD REPLACEMENT CHARACTER, which
`String::from_utf8_lossy` substitutes for each maximal invalid byte
sequence. -/
def utf8_rep : List Nat := [0xEF, 0xBF, 0xBD]

/-- Whether a byte is a UTF-8 continuation byte (`0x80..=0xBF`). -/
def is_cont (b : Nat) : Bool := 0x80 ≤ b && b ≤ 0xBF

/-- Allowed range of the second byte of a multi-byte UTF-8 sequence with
lead byte `b`, as in Rust's `run_utf8_validation`: the lead bytes `0xE0`,
`0xED`, `0xF0`, `0xF4` restrict the second byte beyond the plain
continuation range. -/
def utf8_second_ok (b c : Nat) : Bool :=
  if b = 0xE0 then 0xA0 ≤ c && c ≤ 0xBF
  else if b = 0xED then 0x80 ≤ c && c ≤ 0x9F
  else if b = 0xF0 then 0x90 ≤ c && c ≤ 0xBF
  else if b = 0xF4 then 0x80 ≤ c && c ≤ 0x8F
  else is_cont c

/-- Byte-level model of `String::from_utf8_lossy(bytes).to_string()`:
valid UTF-8 sequences are copied verbatim; each maximal invalid
subsequence is replaced by `utf8_rep`, following Rust's error-length
rules (an invalid lead byte or an invalid second byte skips one byte, an
invalid third byte skips two, an invalid fourth byte skips three, and an
incomplete sequence at the end of the input becomes a single replacement
character). -/
def utf8_lossy : List Nat → List Nat
  | [] => []
  | b :: rest =>
    if b ≤ 0x7F then b :: utf8_lossy rest
    else if b < 0xC2 then utf8_rep ++ utf8_lossy rest
    else if b ≤ 0xDF then
      match rest with
      | [] => utf8_rep
      | c :: rest2 =>
        if is_cont c then b :: c :: utf8_lossy rest2
        else utf8_rep ++ utf8_lossy (c :: rest2)
    else if b ≤ 0xEF then
      match rest with
      | [] => utf8_rep
      | c :: rest2 =>
        if utf8_second_ok b c then
          match rest2 with
          | [] => utf8_rep
          | d :: rest3 =>
            if is_cont d then b :: c :: d :: utf8_lossy rest3
            else utf8_rep ++ utf8_lossy (d :: rest3)
        else utf8_rep ++ utf8_lossy (c :: rest2)
    else if b ≤ 0xF4 then
      match rest with
      | [] => utf8_rep
      | c :: rest2 =>
        if utf8_second_ok b c then
          match rest2 with
          | [] => utf8_rep
          | d :: rest3 =>
            if is_cont d then
              match rest3 with
              | [] => utf8_rep
              | e :: rest4 =>
                if is_cont e then b :: c :: d :: e :: utf8_lossy rest4
                else utf8_rep ++ utf8_lossy (e :: rest4)
            else utf8_rep ++ utf8_lossy (d :: rest3)
        else utf8_rep ++ utf8_lossy (c :: rest2)
    else utf8_rep ++ utf8_lossy rest
termination_by l => l.length
decreasing_by all_goals simp_arith

/-- Rust's byte-level UTF-8 validity predicate (`str::from_utf8` accepts
exactly these byte lists), mirroring `run_utf8_validation`. -/
def valid_utf8 : List Nat → Bool
  | [] => true
  | b :: rest =>
    if b ≤ 0x7F then valid_utf8 rest
    else if b < 0xC2 then false
    else if b ≤ 0xDF then
      match rest with
      | [] => false
      | c :: rest2 => is_cont c && valid_utf8 rest2
    else if b ≤ 0xEF then
      match rest with
      | [] => false
      | c :: rest2 =>
        utf8_second_ok b c &&
          match rest2 with
          | [] => false
          | d :: rest3 => is_cont d && valid_utf8 rest3
    else if b ≤ 0xF4 then
      match rest with
      | [] => false
      | c :: rest2 =>
        utf8_second_ok b c &&
          match rest2 with
          | [] => false
          | d :: rest3 =>
            is_cont d &&
              match rest3 with
              | [] => false
              | e :: rest4 => is_cont e && valid_utf8 rest4
    else false

/-- Model of `decode_string(data: &[u8]) -> Result<Vec<String>, Error>`:
the loop reads `u32::from_le_bytes([data[i], data[i+1], data[i+2],
data[i+3]])` — each index panics when out of bounds, so fewer than four
remaining bytes is a panic — then takes the slice `&data[i..i + wide]`,
which panics when `wide` exceeds the remaining bytes, and pushes
`String::from_utf8_lossy(bytes).to_string()`.  The function never
constructs `Err`. -/
def decode_string : List Nat → RResult (List (List Nat))
  | [] => .ok []
  | b0 :: b1 :: b2 :: b3 :: rest =>
    let wide := u32_from_le b0 b1 b2 b3
    if wide ≤ rest.length then
      match decode_string (List.drop wide rest) with
      | .ok strs => .ok (utf8_lossy (List.take wide rest) :: strs)
      | .err m => .err m
      | .panic => .panic
    else .panic
  | _ => .panic
termination_by l => l.length
decreasing_by simp [List.length_drop]; omega

/-- Model of `encode_string(value: &str) -> Vec<u8>`: the length of the
string's byte buffer cast `as u32`, emitted little-endian, followed by
the raw bytes. -/
def encode_string (value : List Nat) : List Nat :=
  u32_to_le value.length ++ value

/-- Well-formed length-prefixed framing: the buffer is empty, or starts
with a 4-byte little-endian length that fits in the remaining bytes and
whose record is followed by a well-framed tail. -/
def well_framed : List Nat → Bool
  | [] => true
  | b0 :: b1 :: b2 :: b3 :: rest =>
    let wide := u32_from_le b0 b1 b2 b3
    if wide ≤ rest.length then well_framed (List.drop wide rest) else false
  | _ => false
termination_by l => l.length
decreasing_by simp [List.length_drop]; omega

/-! ## Unfolding lemmas for the UTF-8 functions -/

theorem utf8_lossy_one (b : Nat) (rest : List Nat) (h : b ≤ 127) :
    utf8_lossy (b :: rest) = b :: utf8_lossy rest := by
  rw [utf8_lossy.eq_def]; simp [h]

theorem utf8_lossy_two (b c : Nat) (rest : List Nat) (h1 : ¬ b ≤ 127) (h2 : ¬ b < 194)
    (h3 : b ≤ 223) (h4 : is_cont c = true) :
    utf8_lossy (b :: c :: rest) = b :: c :: utf8_lossy rest := by
  rw [utf8_lossy.eq_def]; simp [h1, h2, h3, h4]

theorem utf8_lossy_three (b c d : Nat) (rest : List Nat) (h1 : ¬ b ≤ 223) (h2 : b ≤ 239)
    (h3 : utf8_second_ok b c = true) (h4 : is_cont d = true) :
    utf8_lossy (b :: c :: d :: rest) = b :: c :: d :: utf8_lossy rest := by
  have h5 : ¬ b ≤ 127 := by omega
  have h6 : ¬ b < 194 := by omega
  rw [utf8_lossy.eq_def]; simp [h1, h2, h3, h4, h5, h6]

theorem utf8_lossy_four (b c d e : Nat) (rest : List Nat) (h1 : ¬ b ≤ 239) (h2 : b ≤ 244)
    (h3 : utf8_second_ok b c = true) (h4 : is_cont d = true) (h5 : is_cont e = true) :
    utf8_lossy (b :: c :: d :: e :: rest) = b :: c :: d :: e :: utf8_lossy rest := by
  have h6 : ¬ b ≤ 127 := by omega
  have h7 : ¬ b < 194 := by omega
  have h8 : ¬ b ≤ 223 := by omega
  rw [utf8_lossy.eq_def]; simp [h1, h2, h3, h4, h5, h6, h7, h8]

theorem valid_utf8_one (b : Nat) (rest : List Nat) (h : b ≤ 127) :
    valid_utf8 (b :: rest) = valid_utf8 rest := by
  rw [valid_utf8.eq_def]; simp [h]

theorem valid_utf8_bad_lead (b : Nat) (rest : List Nat) (h1 : ¬ b ≤ 127) (h2 : b < 194) :
    valid_utf8 (b :: rest) = false := by
  rw [valid_utf8.eq_def]; simp [h1, h2]

theorem valid_utf8_high_lead (b : Nat) (rest : List Nat) (h1 : ¬ b ≤ 244) :
    valid_utf8 (b :: rest) = false := by
  have h2 : ¬ b ≤ 127 := by omega
  have h3 : ¬ b < 194 := by omega
  have h4 : ¬ b ≤ 223 := by omega
  have h5 : ¬ b ≤ 239 := by omega
  rw [valid_utf8.eq_def]; simp [h1, h2, h3, h4, h5]

theorem valid_utf8_two_nil (b : Nat) (h1 : ¬ b < 194) (h2 : b ≤ 223) :
    valid_utf8 [b] = false := by
  have h3 : ¬ b ≤ 127 := by omega
  rw [valid_utf8.eq_def]; simp [h1, h2, h3]

theorem valid_utf8_two (b c : Nat) (rest : List Nat) (h1 : ¬ b < 194) (h2 : b ≤ 223) :
    valid_utf8 (b :: c :: rest) = (is_cont c && valid_utf8 rest) := by
  have h3 : ¬ b ≤ 127 := by omega
  rw [valid_utf8.eq_def]; simp [h1, h2, h3]

theorem valid_utf8_three_nil (b : Nat) (h1 : ¬ b ≤ 223) (h2 : b ≤ 239) :
    valid_utf8 [b] = false := by
  have h3 : ¬ b ≤ 127 := by omega
  have h4 : ¬ b < 194 := by omega
  rw [valid_utf8.eq_def]; simp [h1, h2, h3, h4]

theorem valid_utf8_three_one (b c : Nat) (h1 : ¬ b ≤ 223) (h2 : b ≤ 239) :
    valid_utf8 [b, c] = false := by
  have h3 : ¬ b ≤ 127 := by omega
  have h4 : ¬ b < 194 := by omega
  rw [valid_utf8.eq_def]; simp [h1, h2, h3, h4]

theorem valid_utf8_three (b c d : Nat) (rest : List Nat) (h1 : ¬ b ≤ 223) (h2 : b ≤ 239) :
    valid_utf8 (b :: c :: d :: rest) =
      (utf8_second_ok b c && (is_cont d && valid_utf8 rest)) := by
  have h3 : ¬ b ≤ 127 := by omega
  have h4 : ¬ b < 194 := by omega
  rw [valid_utf8.eq_def]; simp [h1, h2, h3, h4, Bool.and_assoc]

theorem valid_utf8_four_nil (b : Nat) (h1 : ¬ b ≤ 239) (h2 : b ≤ 244) :
    valid_utf8 [b] = false := by
  have h3 : ¬ b ≤ 127 := by omega
  have h4 : ¬ b < 194 := by omega
  have h5 : ¬ b ≤ 223 := by omega
  rw [valid_utf8.eq_def]; simp [h1, h2, h3, h4, h5]

theorem valid_utf8_four_one (b c : Nat) (h1 : ¬ b ≤ 239) (h2 : b ≤ 244) :
    valid_utf8 [b, c] = false := by
  have h3 : ¬ b ≤ 127 := by omega
  have h4 : ¬ b < 194 := by omega
  have h5 : ¬ b ≤ 223 := by omega
  rw [valid_utf8.eq_def]; simp [h1, h2, h3, h4, h5]

theorem valid_utf8_four_two (b c d : Nat) (h1 : ¬ b ≤ 239) (h2 : b ≤ 244) :
    valid_utf8 [b, c, d] = false := by
  have h3 : ¬ b ≤ 127 := by omega
  have h4 : ¬ b < 194 := by omega
  have h5 : ¬ b ≤ 223 := by omega
  rw [valid_utf8.eq_def]; simp [h1, h2, h3, h4, h5]

theorem valid_utf8_four (b c d e : Nat) (rest : List Nat) (h1 : ¬ b ≤ 239) (h2 : b ≤ 244) :
    valid_utf8 (b :: c :: d :: e :: rest) =
      (utf8_second_ok b c && (is_cont d && (is_cont e && valid_utf8 rest))) := by
  have h3 : ¬ b ≤ 127 := by omega
  have h4 : ¬ b < 194 := by omega
  have h5 : ¬ b ≤ 223 := by omega
  rw [valid_utf8.eq_def]; simp [h1, h2, h3, h4, h5, Bool.and_assoc]

set_option maxHeartbeats 1000000 in
theorem utf8_lossy_of_valid : ∀ l, valid_utf8 l = true → utf8_lossy l = l := by
  intro l h
  induction l using utf8_lossy.induct
  case case1 => simp [utf8_lossy]
  case case11 =>
    rename_i b h1 h2 h3 h4 c rest2 hso ih
    cases rest2 with
    | nil => simp_all [valid_utf8_three_one]
    | cons d r => simp_all [valid_utf8_three]
  case case17 =>
    rename_i b h1 h2 h3 h4 h5 c hso d rest2 hd ih
    cases rest2 with
    | nil => simp_all [valid_utf8_four_two]
    | cons e r => simp_all [valid_utf8_four]
  case case18 =>
    rename_i b h1 h2 h3 h4 h5 c rest2 hso ih
    cases rest2 with
    | nil => simp_all [valid_utf8_four_one]
    | cons d r =>
      cases r with
      | nil => simp_all [valid_utf8_four_two]
      | cons e r2 => simp_all [valid_utf8_four]
  all_goals simp_all [utf8_lossy_one, utf8_lossy_two, utf8_lossy_three, utf8_lossy_four,
    valid_utf8_one, valid_utf8_bad_lead, valid_utf8_high_lead, valid_utf8_two_nil,
    valid_utf8_two, valid_utf8_three_nil, valid_utf8_three_one, valid_utf8_three,
    valid_utf8_four_nil, valid_utf8_four_one, valid_utf8_four_two, valid_utf8_four]

/-! ## Model state attachment (`src/triton-rs/src/model.rs`)

The native model handle carries one opaque `void*` state slot, written by
`TRITONBACKEND_ModelSetState` and read by `TRITONBACKEND_ModelState`.  We
model the slot as `Option StoredVal`: `none` is a null pointer and
`some s` a pointer to an allocation whose payload is `s.val`, created and
addressed at the static Rust type recorded in `s.ty`.  Recording the
static type makes pointer casts visible: a type-correct program reads an
allocation back at the type it was created with, while a cast such as
`state_ptr as *mut Box<dyn Any>` on an allocation created as a plain `D`
is a reinterpretation of the raw bytes (type punning / undefined
behavior), which the model shows as a changed `ty` field.  Concrete Rust
types with a `TypeId` are numbered by a `Nat`. -/

/-- Static Rust type at which a state allocation is addressed: `plain id`
is a concrete sized type `D` with `TypeId` number `id` (what
`Box::into_raw(Box::new(data))` in `set_data` creates and what
`state_ptr as *const D` in `data::<D>` reads), and `boxDynAny` is the
fat-pointer type `Box<dyn Any>` that `drop_data`'s
`Box::from_raw(state_ptr as *mut Box<dyn Any>)` reads. -/
inductive RustTy where
  | plain (id : Nat)
  | boxDynAny
deriving DecidableEq, Repr

/-- Contents of the state slot: the payload value together with the
static type at which the pointed-to allocation is addressed. -/
structure StoredVal where
  ty : RustTy
  val : Nat
deriving DecidableEq, Repr

/-- Model of `Model::drop_data`: read the slot; on null return
`Ok(None)`; otherwise run `Box::from_raw(state_ptr as *mut Box<dyn Any>)`
— which addresses the allocation at type `Box<dyn Any>`, whatever type it
was created at — store null back, and return the recovered object.
Returns the outcome and the new slot. -/
def Model.drop_data (slot : Option StoredVal) :
    RResult (Option StoredVal) × Option StoredVal :=
  match slot with
  | none => (.ok none, none)
  | some s => (.ok (some { ty := RustTy.boxDynAny, val := s.val }), none)

/-- Model of `Model::set_data::<D>(data)`: first `self.drop_data()?`,
then `Box::into_raw(Box::new(data))` — an allocation of static type `D`
— stored into the slot by the native setter.  `D` is the `TypeId` number
of the concrete type, `v` the payload. -/
def Model.set_data (D : Nat) (v : Nat) (slot : Option StoredVal) :
    RResult Unit × Option StoredVal :=
  match Model.drop_data slot with
  | (.ok _, _) => (.ok (), some { ty := RustTy.plain D, val := v })
  | (.err m, slot2) => (.err m, slot2)
  | (.panic, slot2) => (.panic, slot2)

/-- Model of `Model::data::<D>()`: read the slot; on null return
`Ok(None)`; otherwise `let data = &*(state_ptr as *const D)` gives a
reference of static type `D`, and the guard compares
`TypeId::of::<D>()` with `(*data).type_id()`.  Because `data : &D` and
`D : Any` is a generic (statically sized) type, `(*data).type_id()`
resolves through the blanket `impl<T: 'static + ?Sized> Any for T` at
`T = D` — there is no trait object here, so no dynamic dispatch — and
returns `TypeId::of::<D>()` regardless of what the slot holds.  The
model therefore compares `D` with `D`. -/
def Model.data (D : Nat) (slot : Option StoredVal) :
    RResult (Option StoredVal) :=
  match slot with
  | none => .ok none
  | some s =>
    let observed_type_id := D
    if D = observed_type_id then .ok (some { ty := RustTy.plain D, val := s.val })
    else .err "Model state type mismatch"

/-! ## Error bridge of the ABI shim (`src/triton-rs/src/backend.rs`)

Each of the generated native entry points wraps its hook invocation in
the `call_checked!` translation: a failure message here is the byte
buffer of `err.to_string()`. -/

/-- What a generated native entry point hands back to the host: a null
error pointer, a pointer to a freshly allocated `TRITONSERVER_Error`
with a code and a message, or a Rust panic escaping the entry point. -/
inductive ShimResult where
  | null
  | errObj (code : Nat) (msg : List Nat)
  | panic
deriving DecidableEq, Repr

/-- Numeric value of `TRITONSERVER_ERROR_INTERNAL` in the native error
code enumeration. -/
def TRITONSERVER_ERROR_INTERNAL : Nat := 1

/-- Model of the `call_checked!` macro body: on `Err(err)` it runs
`CString::new(err.to_string()).expect("CString::new failed")` — which
panics when the message contains an interior NUL byte — and otherwise
allocates a fresh native error object via `TRITONSERVER_ErrorNew` with
the internal error code and that message; on `Ok(..)` it returns a null
pointer. -/
def call_checked (res : Except (List Nat) Unit) : ShimResult :=
  match res with
  | .error e => if e.contains 0 then .panic
                else .errObj TRITONSERVER_ERROR_INTERNAL e
  | .ok _ => .null

/-! ## Input buffer access (`src/triton-rs/src/request.rs`)

An `Input`'s bytes live in `buffer_count` native regions, each tagged
with a memory kind; `TRITONBACKEND_InputProperties` reports
`buffer_count` and `TRITONBACKEND_InputBuffer` returns one region.  We
model the native side as the list of regions. -/

/-- Values of the `TRITONSERVER_memorytype_enum`. -/
def TRITONSERVER_MEMORY_CPU : Nat := 0

/-- CPU-pinned member of the memory type enumeration. -/
def TRITONSERVER_MEMORY_CPU_PINNED : Nat := 1

/-- GPU member of the memory type enumeration. -/
def TRITONSERVER_MEMORY_GPU : Nat := 2

/-- One native buffer region of an input: its bytes and the memory kind
the native call reports for it. -/
structure Region where
  bytes : List Nat
  mem_kind : Nat
deriving DecidableEq, Repr

/-- Native state backing one `Input` handle: the regions holding the
tensor's bytes in index order.  `TRITONBACKEND_InputProperties` reports
`buffer_count = regions.length`. -/
structure InputVal where
  regions : List Region
deriving DecidableEq, Repr

/-- Model of `Input::raw_buffer(buffer_index)`: call
`TRITONBACKEND_InputBuffer` for the region (the native call fails for an
index at or above `buffer_count`, surfaced by `check_err` as an error
carrying the host's numeric code, arbitrary here); then match on the
memory kind: CPU and CPU-pinned yield a borrowed slice over the region,
anything else is the explicit unsupported-memory error. -/
def Input.raw_buffer (inp : InputVal) (buffer_index : Nat) : RResult (List Nat) :=
  match inp.regions.get? buffer_index with
  | none => .err "TRITONBACKEND_ModelInstanceModel returned error code 13"
  | some r =>
    if r.mem_kind = TRITONSERVER_MEMORY_CPU ∨ r.mem_kind = TRITONSERVER_MEMORY_CPU_PINNED then
      .ok r.bytes
    else .err "GPU memory is unsupported"

/-- Result of `Input::buffer()`, mirroring `Cow<[u8]>`: a borrowed view
aliasing a single native region, or an owned vector copied out of the
regions. -/
inductive BufferView where
  | borrowed (bytes : List Nat)
  | owned (bytes : List Nat)
deriving DecidableEq, Repr

/-- Bytes seen through either kind of view (`Cow::deref`). -/
def BufferView.bytes : BufferView → List Nat
  | .borrowed b => b
  | .owned b => b

/-- The copy loop of `Input::buffer()`'s multi-region arm: for each index
in turn, `raw_buffer(idx)?` and `extend_from_slice` onto the
accumulator; the first error aborts the whole loop. -/
def Input.gather (inp : InputVal) : List Nat → List Nat → RResult (List Nat)
  | [], acc => .ok acc
  | i :: rest, acc =>
    match Input.raw_buffer inp i with
    | .ok b => Input.gather inp rest (acc ++ b)
    | .err m => .err m
    | .panic => .panic

/-- Model of `Input::buffer()`: read `buffer_count` from the properties
call; when it is exactly 1, return `Cow::Borrowed` of `raw_buffer(0)`;
otherwise copy regions `0..buffer_count` in index order into a fresh
vector and return `Cow::Owned`. -/
def Input.buffer (inp : InputVal) : RResult BufferView :=
  if inp.regions.length = 1 then
    match Input.raw_buffer inp 0 with
    | .ok b => .ok (.borrowed b)
    | .err m => .err m
    | .panic => .panic
  else
    match Input.gather inp (List.range inp.regions.length) [] with
    | .ok b => .ok (.owned b)
    | .err m => .err m
    | .panic => .panic

/-- Value of `u64::from_le_bytes` on an 8-byte buffer, as a fold over
the byte list (little-endian place value). -/
def u64_from_le_bytes (bytes : List Nat) : Nat :=
  bytes.foldr (fun b acc => b + 256 * acc) 0

/-- Model of `Input::as_u64()`: assemble the buffer with `buffer()?`,
then `bytes.copy_from_slice(&buffer)` into a `[u8; 8]` — which panics
unless the buffer length is exactly 8 — and return
`u64::from_le_bytes(bytes)`. -/
def Input.as_u64 (inp : InputVal) : RResult Nat :=
  match Input.buffer inp with
  | .ok view =>
    if view.bytes.length = 8 then .ok (u64_from_le_bytes view.bytes) else .panic
  | .err m => .err m
  | .panic => .panic

/-! ## Codec lemmas -/

theorem u32_le_roundtrip (n : Nat) (h : n < 4294967296) :
    u32_from_le (n % 256) (n / 256 % 256) (n / 65536 % 256) (n / 16777216 % 256) = n := by
  simp only [u32_from_le]
  omega

theorem decode_encode_append (s t : List Nat) (h : s.length < 4294967296) :
    decode_string (encode_string s ++ t) =
      match decode_string t with
      | .ok strs => .ok (utf8_lossy s :: strs)
      | .err m => .err m
      | .panic => .panic := by
  have hm : s.length % 4294967296 = s.length := Nat.mod_eq_of_lt h
  simp only [encode_string, u32_to_le, hm, List.cons_append, List.nil_append]
  rw [decode_string]
  rw [u32_le_roundtrip s.length h]
  simp [List.take_left, List.drop_left]

theorem decode_string_ne_err : ∀ l m, decode_string l ≠ .err m := by
  intro l
  induction l using decode_string.induct with
  | case1 => intro m; simp [decode_string]
  | case2 b0 b1 b2 b3 rest wide hle strs heq ih =>
    intro m
    rw [decode_string]
    simp [hle, heq]
  | case3 b0 b1 b2 b3 rest wide hle m2 heq ih =>
    exact absurd heq (ih m2)
  | case4 b0 b1 b2 b3 rest wide hle heq ih =>
    intro m
    rw [decode_string]
    simp [hle, heq]
  | case5 b0 b1 b2 b3 rest wide hle =>
    intro m
    rw [decode_string]
    simp [hle]
  | case6 x h1 h2 =>
    intro m
    match x, h1, h2 with
    | [], h1, _ => exact absurd rfl h1
    | [a], _, _ => simp [decode_string]
    | [a, b], _, _ => simp [decode_string]
    | [a, b, c], _, _ => simp [decode_string]
    | a :: b :: c :: d :: r, _, h2 => exact absurd rfl (h2 a b c d r)

theorem decode_string_wf_spec :
    ∀ l, (well_framed l = true → ∃ s, decode_string l = .ok s) ∧
      (well_framed l = false → decode_string l = .panic) := by
  intro l
  induction l using decode_string.induct with
  | case1 =>
    constructor
    · intro _; exact ⟨[], by simp [decode_string]⟩
    · intro h; simp [well_framed] at h
  | case2 b0 b1 b2 b3 rest wide hle strs heq ih =>
    constructor
    · intro _
      refine ⟨utf8_lossy (List.take (u32_from_le b0 b1 b2 b3) rest) :: strs, ?_⟩
      rw [decode_string]
      simp [hle, heq]
    · intro hwf
      rw [well_framed] at hwf
      simp only [if_pos hle] at hwf
      have := ih.2 hwf
      rw [this] at heq
      simp at heq
  | case3 b0 b1 b2 b3 rest wide hle m2 heq ih =>
    exact absurd heq (decode_string_ne_err _ m2)
  | case4 b0 b1 b2 b3 rest wide hle heq ih =>
    constructor
    · intro hwf
      rw [well_framed] at hwf
      simp only [if_pos hle] at hwf
      obtain ⟨s, hs⟩ := ih.1 hwf
      rw [hs] at heq
      simp at heq
    · intro _
      rw [decode_string]
      simp [hle, heq]
  | case5 b0 b1 b2 b3 rest wide hle =>
    constructor
    · intro hwf
      rw [well_framed] at hwf
      simp [if_neg hle] at hwf
    · intro _
      rw [decode_string]
      simp [hle]
  | case6 x h1 h2 =>
    match x, h1, h2 with
    | [], h1, _ => exact absurd rfl h1
    | [a], _, _ => constructor <;> intro h <;> simp_all [well_framed, decode_string]
    | [a, b], _, _ => constructor <;> intro h <;> simp_all [well_framed, decode_string]
    | [a, b, c], _, _ => constructor <;> intro h <;> simp_all [well_framed, decode_string]
    | a :: b :: c :: d :: r, _, h2 => exact absurd rfl (h2 a b c d r)

/-- C3 (amended): for every sequence of UTF-8 strings in which each
string is shorter than `2 ^ 32` bytes, decoding the concatenation of the
encodings of the strings yields exactly the original sequence.  (The
length bound is forced by the 4-byte length field: `as u32` truncates
the length of a longer string.) -/
theorem decode_encode_roundtrip (strings : List (List Nat))
    (hv : ∀ s ∈ strings, valid_utf8 s = true)
    (hl : ∀ s ∈ strings, s.length < 4294967296) :
    decode_string ((strings.map encode_string).flatten) = .ok strings := by
  induction strings with
  | nil => simp [decode_string]
  | cons s rest ih =>
    have hs : valid_utf8 s = true := hv s (by simp)
    have hsl : s.length < 4294967296 := hl s (by simp)
    have ihr := ih (fun x hx => hv x (by simp [hx])) (fun x hx => hl x (by simp [hx]))
    simp only [List.map_cons, List.flatten_cons]
    rw [decode_encode_append s _ hsl, ihr, utf8_lossy_of_valid s hs]

/-! ## Claims about the codec -/

/-- C1: on every buffer whose framing is broken — a 4-byte little-endian
length prefix claiming more bytes than remain, or a buffer ending with
fewer than 4 bytes of prefix — `decode_string` panics (Rust
index/slice out-of-bounds panic) and never returns a decode error: its
`Err` case is unreachable for every input.  The claim's "returns a
decode error" is therefore false of the code, while "never reads out of
the buffer's bounds" holds (the panic happens instead of any
out-of-bounds read). -/
theorem C1_truncated_decode_panics :
    (∀ data : List Nat, well_framed data = false →
        decode_string data = .panic ∧ ∀ m, decode_string data ≠ .err m)
    ∧ decode_string [3, 0, 0, 0] = .panic
    ∧ decode_string [7, 0] = .panic := by
  refine ⟨fun data h => ⟨(decode_string_wf_spec data).2 h, decode_string_ne_err data⟩, ?_, ?_⟩
  · simp [decode_string, u32_from_le]
  · simp [decode_string]

/-- Witness for C1: the concrete truncated buffer `[5, 0, 0, 0, 1]`
(prefix claims 5 bytes, 1 remains) is rejected by the framing check and
`decode_string` panics on it. -/
theorem C1_truncated_decode_panics_witness :
    well_framed [5, 0, 0, 0, 1] = false ∧ decode_string [5, 0, 0, 0, 1] = RResult.panic :=
  ⟨by simp [well_framed, u32_from_le],
   (C1_truncated_decode_panics.1 [5, 0, 0, 0, 1] (by simp [well_framed, u32_from_le])).1⟩

/-- C10: `decode_string` never fails on payload content — on every
well-framed buffer it returns `Ok`, it returns `Err` on no input at all,
and a record whose payload is invalid UTF-8 (here the lone byte `0xFF`)
decodes to U+FFFD (UTF-8 bytes `EF BF BD`) by lossy conversion, while a
valid UTF-8 payload decodes verbatim. -/
theorem C10_decode_lossy_total :
    (∀ data : List Nat, well_framed data = true → ∃ strs, decode_string data = .ok strs)
    ∧ (∀ data : List Nat, ∀ m, decode_string data ≠ .err m)
    ∧ decode_string [1, 0, 0, 0, 0xFF] = .ok [[0xEF, 0xBF, 0xBD]]
    ∧ decode_string [2, 0, 0, 0, 0xC3, 0xA9] = .ok [[0xC3, 0xA9]] := by
  refine ⟨fun d h => (decode_string_wf_spec d).1 h, fun d m => decode_string_ne_err d m, ?_, ?_⟩
  · simp [decode_string, u32_from_le, utf8_lossy, utf8_rep]
  · simp [decode_string, u32_from_le, utf8_lossy, utf8_second_ok, is_cont, utf8_rep]

/-- Witness for C10: the well-framed buffer `[0, 0, 0, 0]` (one record
of length 0) decodes successfully. -/
theorem C10_decode_lossy_total_witness :
    ∃ strs, decode_string [0, 0, 0, 0] = RResult.ok strs :=
  C10_decode_lossy_total.1 [0, 0, 0, 0] (by simp [well_framed, u32_from_le])

/-- C8: `encode_string` emits exactly the 4-byte little-endian length
followed by the raw bytes with no padding; encoding `"cat"` then
`"dogs"` and concatenating yields the 15 bytes
`03 00 00 00 63 61 74 04 00 00 00 64 6F 67 73`, and `decode_string` on
those bytes returns `["cat", "dogs"]`. -/
theorem C8_encode_layout :
    (∀ s : List Nat, encode_string s = u32_to_le s.length ++ s)
    ∧ encode_string [0x63, 0x61, 0x74] = [3, 0, 0, 0, 0x63, 0x61, 0x74]
    ∧ encode_string [0x64, 0x6F, 0x67, 0x73] = [4, 0, 0, 0, 0x64, 0x6F, 0x67, 0x73]
    ∧ encode_string [0x63, 0x61, 0x74] ++ encode_string [0x64, 0x6F, 0x67, 0x73]
        = [3, 0, 0, 0, 0x63, 0x61, 0x74, 4, 0, 0, 0, 0x64, 0x6F, 0x67, 0x73]
    ∧ decode_string [3, 0, 0, 0, 0x63, 0x61, 0x74, 4, 0, 0, 0, 0x64, 0x6F, 0x67, 0x73]
        = .ok [[0x63, 0x61, 0x74], [0x64, 0x6F, 0x67, 0x73]] := by
  refine ⟨fun s => rfl, by decide, by decide, by decide, ?_⟩
  simp [decode_string, u32_from_le, utf8_lossy, is_cont, utf8_rep]

/-- Helper for the C3 counterexample: whenever a string's byte length is
a positive multiple of `2 ^ 32`, the `as u32` cast in `encode_string`
truncates the length field to 0, so decoding the encoding cannot give
back the one-element sequence holding that string. -/
theorem decode_encode_len_mod_zero (s : List Nat) (hmod : s.length % 4294967296 = 0)
    (hne : s ≠ []) :
    decode_string (encode_string s) ≠ RResult.ok [s] := by
  have henc : encode_string s = 0 :: 0 :: 0 :: 0 :: s := by
    simp [encode_string, u32_to_le, hmod]
  have h0 : u32_from_le 0 0 0 0 = 0 := by simp [u32_from_le]
  rw [henc, decode_string, h0]
  simp only [List.drop_zero, List.take_zero, Nat.zero_le, if_pos]
  cases h : decode_string s with
  | ok l =>
    simp only [utf8_lossy]
    intro he
    have h2 : ([] : List Nat) :: l = [s] := by
      exact (RResult.ok.injEq _ _).mp he
    have h3 : ([] : List Nat) = s := ((List.cons.injEq _ _ _ _).mp h2).1
    exact hne h3.symm
  | err m => simp
  | panic => simp

/-- Counterexample to C3 as stated: the valid UTF-8 string consisting of
`2 ^ 32` copies of `'a'` does not round-trip — its 4-byte length field
wraps to 0 — so the round-trip property does not hold for *every*
sequence of UTF-8 strings, only for those below the length bound. -/
theorem C3_roundtrip_counterexample :
    decode_string (encode_string (List.replicate 4294967296 97)) ≠
      RResult.ok [List.replicate 4294967296 97] :=
  decode_encode_len_mod_zero _ (by rw [List.length_replicate])
    (by
      intro h
      have := congrArg List.length h
      rw [List.length_replicate] at this
      simp at this)

/-- Witness for C3 (amended): the two-string sequence `["cat", "dogs"]`
satisfies both hypotheses and round-trips. -/
theorem C3_roundtrip_witness :
    decode_string (([[0x63, 0x61, 0x74], [0x64, 0x6F, 0x67, 0x73]].map encode_string).flatten)
      = RResult.ok [[0x63, 0x61, 0x74], [0x64, 0x6F, 0x67, 0x73]] :=
  decode_encode_roundtrip _ (by decide) (by decide)

/-! ## Claims about model state attachment -/

/-- C2: the run-time type guard in `Model::data::<D>` is vacuous, so a
mismatched type is silently cast instead of producing the
"state type mismatch" error.  First conjunct: `data` can return the
mismatch error for no expected type and no slot content whatsoever
(the `Err` branch is dead code, because `(*data).type_id()` on a
reference of static type `D` is `TypeId::of::<D>()`).  Second conjunct:
after attaching a value of type number 0, reading it back expecting type
number 1 succeeds and hands out the value reinterpreted at type 1 — the
silent cast the claim says cannot happen. -/
theorem C2_data_type_check_vacuous :
    (∀ (E : Nat) (slot : Option StoredVal) (m : String), Model.data E slot ≠ .err m)
    ∧ Model.data 1 (Model.set_data 0 42 none).2 =
        .ok (some { ty := RustTy.plain 1, val := 42 }) := by
  constructor
  · intro E slot m
    cases slot <;> simp [Model.data]
  · decide

/-- C4: after `set_data` stores a value of type number 0 with payload 7,
the first `drop_data` does clear the slot to null and a second
`drop_data` does return none — but the object the first call returns is
the allocation reinterpreted at type `Box<dyn Any>`
(`Box::from_raw(state_ptr as *mut Box<dyn Any>)`), not the stored value,
which `set_data` created as a plain `D` (`Box::into_raw(Box::new(data))`)
and which `data::<D>` reads back as a plain `D`
(`&*(state_ptr as *const D)`). -/
theorem C4_drop_data_pun :
    (Model.set_data 0 7 none).1 = .ok ()
    ∧ Model.drop_data (Model.set_data 0 7 none).2 =
        (.ok (some { ty := RustTy.boxDynAny, val := 7 }), none)
    ∧ (some { ty := RustTy.boxDynAny, val := 7 } : Option StoredVal) ≠
        some { ty := RustTy.plain 0, val := 7 }
    ∧ Model.drop_data (Model.drop_data (Model.set_data 0 7 none).2).2 = (.ok none, none) := by
  refine ⟨by decide, by decide, by decide, by decide⟩

/-! ## Claims about the error bridge -/

/-- C5 (amended): a hook failure whose message contains no NUL byte
becomes a freshly allocated native error object tagged with the
internal error code and carrying exactly the failure text, and a hook
success becomes a null error pointer.  (The NUL restriction is forced by
`CString::new(..).expect(..)`, which panics on an interior NUL.) -/
theorem C5_call_checked (m : List Nat) (h : (0 : Nat) ∉ m) :
    call_checked (.error m) = .errObj TRITONSERVER_ERROR_INTERNAL m
    ∧ call_checked (.ok ()) = .null := by
  constructor
  · simp [call_checked, h]
  · rfl

/-- Witness for C5 (amended): the failure message `"oops"` is wrapped
into an internal-category error object, and success yields null. -/
theorem C5_call_checked_witness :
    call_checked (.error [0x6F, 0x6F, 0x70, 0x73]) =
        ShimResult.errObj TRITONSERVER_ERROR_INTERNAL [0x6F, 0x6F, 0x70, 0x73]
    ∧ call_checked (.ok ()) = ShimResult.null :=
  C5_call_checked [0x6F, 0x6F, 0x70, 0x73] (by decide)

/-- Counterexample to C5 as stated: a hook failure whose message is the
single NUL byte makes `call_checked` panic (`CString::new` fails and
`.expect` aborts), so no error object at all — let alone a non-null one
carrying the failure text — reaches the host for that invocation. -/
theorem C5_nul_counterexample :
    call_checked (.error [0]) = ShimResult.panic
    ∧ ¬ ∃ c msg, call_checked (.error [0]) = ShimResult.errObj c msg := by
  constructor
  · decide
  · intro ⟨c, msg, h⟩
    simp [call_checked] at h

/-! ## Lemmas about input buffer access -/

theorem raw_buffer_ok (inp : InputVal) (i : Nat) (r : Region)
    (hr : inp.regions.get? i = some r)
    (hs : r.mem_kind = TRITONSERVER_MEMORY_CPU ∨ r.mem_kind = TRITONSERVER_MEMORY_CPU_PINNED) :
    Input.raw_buffer inp i = .ok r.bytes := by
  rw [List.get?_eq_getElem?] at hr
  simp [Input.raw_buffer, hr, hs]

theorem raw_buffer_unsupported (inp : InputVal) (i : Nat) (r : Region)
    (hr : inp.regions.get? i = some r)
    (hs : ¬(r.mem_kind = TRITONSERVER_MEMORY_CPU ∨ r.mem_kind = TRITONSERVER_MEMORY_CPU_PINNED)) :
    Input.raw_buffer inp i = .err "GPU memory is unsupported" := by
  rw [List.get?_eq_getElem?] at hr
  simp [Input.raw_buffer, hr, hs]

theorem gather_range (inp : InputVal)
    (hsup : ∀ r ∈ inp.regions,
      r.mem_kind = TRITONSERVER_MEMORY_CPU ∨ r.mem_kind = TRITONSERVER_MEMORY_CPU_PINNED) :
    ∀ (n k : Nat) (acc : List Nat), k + n ≤ inp.regions.length →
    Input.gather inp (List.range' k n) acc =
      .ok (acc ++ ((((inp.regions.drop k).take n).map Region.bytes).flatten)) := by
  intro n
  induction n with
  | zero => intro k acc h; simp [Input.gather]
  | succ m ih =>
    intro k acc h
    have hk : k < inp.regions.length := by omega
    have hr : inp.regions.get? k = some (inp.regions.get ⟨k, hk⟩) := List.get?_eq_get hk
    have hmem : inp.regions.get ⟨k, hk⟩ ∈ inp.regions := List.get?_mem hr
    rw [List.range'_succ]
    simp only [Input.gather, raw_buffer_ok inp k _ hr (hsup _ hmem)]
    rw [ih (k + 1) (acc ++ (inp.regions.get ⟨k, hk⟩).bytes) (by omega)]
    rw [List.drop_eq_getElem_cons hk, List.take_succ_cons]
    simp only [List.map_cons, List.flatten_cons, List.get_eq_getElem, List.append_assoc]

theorem gather_unsupported (inp : InputVal) :
    ∀ (idxs : List Nat) (acc : List Nat),
    (∀ i ∈ idxs, i < inp.regions.length) →
    (∃ i ∈ idxs, ∃ r, inp.regions.get? i = some r ∧
      ¬(r.mem_kind = TRITONSERVER_MEMORY_CPU ∨ r.mem_kind = TRITONSERVER_MEMORY_CPU_PINNED)) →
    Input.gather inp idxs acc = .err "GPU memory is unsupported" := by
  intro idxs
  induction idxs with
  | nil => intro acc _ hex; simp at hex
  | cons i0 rest ih =>
    intro acc hbound hex
    have hk : i0 < inp.regions.length := hbound i0 (by simp)
    have hr0 : inp.regions.get? i0 = some (inp.regions.get ⟨i0, hk⟩) := List.get?_eq_get hk
    by_cases hs : (inp.regions.get ⟨i0, hk⟩).mem_kind = TRITONSERVER_MEMORY_CPU ∨
        (inp.regions.get ⟨i0, hk⟩).mem_kind = TRITONSERVER_MEMORY_CPU_PINNED
    · simp only [Input.gather, raw_buffer_ok inp i0 _ hr0 hs]
      apply ih
      · intro i hi; exact hbound i (by simp [hi])
      · obtain ⟨i, hi, r, hri, hbad⟩ := hex
        rcases List.mem_cons.mp hi with heq | htl
        · subst heq
          rw [hri] at hr0
          cases hr0
          exact absurd hs hbad
        · exact ⟨i, htl, r, hri, hbad⟩
    · simp only [Input.gather, raw_buffer_unsupported inp i0 _ hr0 hs]

/-! ## Claims about input buffer access -/

/-- C6: when every region of an input has a supported (CPU or
CPU-pinned) memory kind, `Input::buffer()` on an input with exactly one
region returns a borrowed view (`Cow::Borrowed`) aliasing that region's
bytes without copying, and on an input with `N ≥ 2` regions returns an
owned buffer (`Cow::Owned`) whose bytes are the concatenation of the
regions' bytes in ascending index order. -/
theorem C6_input_buffer (inp : InputVal)
    (hsup : ∀ r ∈ inp.regions,
      r.mem_kind = TRITONSERVER_MEMORY_CPU ∨ r.mem_kind = TRITONSERVER_MEMORY_CPU_PINNED) :
    (∀ r, inp.regions = [r] → Input.buffer inp = .ok (.borrowed r.bytes))
    ∧ (2 ≤ inp.regions.length →
        Input.buffer inp = .ok (.owned ((inp.regions.map Region.bytes).flatten))) := by
  constructor
  · intro r hr
    have h1 : inp.regions.length = 1 := by rw [hr]; rfl
    have hg : inp.regions.get? 0 = some r := by rw [hr]; rfl
    simp only [Input.buffer, h1, if_pos,
      raw_buffer_ok inp 0 r hg (hsup r (by rw [hr]; simp))]
  · intro h2
    have hne : ¬ inp.regions.length = 1 := by omega
    have hb := gather_range inp hsup inp.regions.length 0 [] (by omega)
    rw [← List.range_eq_range'] at hb
    simp only [Input.buffer, if_neg hne, hb]
    simp

/-- Witness for C6: a two-region input concatenates `[1, 2]` and
`[3, 4, 5]` into an owned `[1, 2, 3, 4, 5]`, and a one-region input
yields a borrowed view of its bytes. -/
theorem C6_input_buffer_witness :
    Input.buffer ⟨[⟨[1, 2], 0⟩, ⟨[3, 4, 5], 1⟩]⟩ =
      RResult.ok (BufferView.owned [1, 2, 3, 4, 5])
    ∧ Input.buffer ⟨[⟨[9, 9], 1⟩]⟩ = RResult.ok (BufferView.borrowed [9, 9]) := by
  constructor
  · have := (C6_input_buffer ⟨[⟨[1, 2], 0⟩, ⟨[3, 4, 5], 1⟩]⟩ (by decide)).2 (by decide)
    simpa using this
  · exact (C6_input_buffer ⟨[⟨[9, 9], 1⟩]⟩ (by decide)).1 ⟨[9, 9], 1⟩ rfl

/-- C7: reading any region whose memory kind is neither CPU nor
CPU-pinned fails with the explicit "GPU memory is unsupported" error
(`raw_buffer` returns that error and no bytes), and when any region of
an input is unsupported the whole `Input::buffer()` operation aborts
with that same error, exposing no partial concatenation. -/
theorem C7_unsupported_memory (inp : InputVal) :
    (∀ i r, inp.regions.get? i = some r →
        ¬(r.mem_kind = TRITONSERVER_MEMORY_CPU ∨ r.mem_kind = TRITONSERVER_MEMORY_CPU_PINNED) →
        Input.raw_buffer inp i = .err "GPU memory is unsupported")
    ∧ ((∃ r ∈ inp.regions,
          ¬(r.mem_kind = TRITONSERVER_MEMORY_CPU ∨ r.mem_kind = TRITONSERVER_MEMORY_CPU_PINNED)) →
        Input.buffer inp = .err "GPU memory is unsupported") := by
  constructor
  · exact fun i r hr hs => raw_buffer_unsupported inp i r hr hs
  · intro hex
    obtain ⟨r, hmem, hbad⟩ := hex
    obtain ⟨i, hi⟩ := List.mem_iff_get?.mp hmem
    have hlt : i < inp.regions.length := by
      by_contra hge
      rw [List.get?_eq_none.mpr (Nat.le_of_not_lt hge)] at hi
      cases hi
    by_cases h1 : inp.regions.length = 1
    · have hi0 : inp.regions.get? 0 = some r := by
        have : i = 0 := by omega
        rw [← this]; exact hi
      simp only [Input.buffer, h1, if_pos,
        raw_buffer_unsupported inp 0 r hi0 hbad]
    · have hg := gather_unsupported inp (List.range inp.regions.length) []
        (fun j hj => List.mem_range.mp hj)
        ⟨i, List.mem_range.mpr hlt, r, hi, hbad⟩
      simp only [Input.buffer, if_neg h1, hg]

/-- Witness for C7: a two-region input whose second region reports the
GPU memory kind makes `Input.buffer` abort with the unsupported-memory
error, no partial copy of the first region escaping. -/
theorem C7_unsupported_memory_witness :
    Input.buffer ⟨[⟨[1, 2], 0⟩, ⟨[3], 2⟩]⟩ = RResult.err "GPU memory is unsupported" :=
  (C7_unsupported_memory _).2 ⟨⟨[3], 2⟩, by decide, by decide⟩

/-- C9: whenever the assembled buffer of an input is available,
`Input::as_u64` returns its little-endian unsigned 64-bit interpretation
exactly when the buffer is 8 bytes long, and panics
(`copy_from_slice` length mismatch) — rather than returning an error
value — whenever the buffer length differs from 8. -/
theorem C9_as_u64_spec (inp : InputVal) (view : BufferView)
    (h : Input.buffer inp = .ok view) :
    (view.bytes.length = 8 → Input.as_u64 inp = .ok (u64_from_le_bytes view.bytes))
    ∧ (view.bytes.length ≠ 8 → Input.as_u64 inp = .panic) := by
  constructor <;> intro hl <;> simp [Input.as_u64, h, hl]

/-- Witness for C9: an 8-byte single-region input decodes to the
little-endian value, and a 3-byte one panics. -/
theorem C9_as_u64_spec_witness :
    Input.as_u64 ⟨[⟨[1, 2, 3, 4, 5, 6, 7, 8], 0⟩]⟩ =
      RResult.ok (u64_from_le_bytes [1, 2, 3, 4, 5, 6, 7, 8])
    ∧ Input.as_u64 ⟨[⟨[1, 2, 3], 0⟩]⟩ = RResult.panic := by
  constructor
  · exact (C9_as_u64_spec _ (BufferView.borrowed [1, 2, 3, 4, 5, 6, 7, 8]) (by decide)).1
      (by decide)
  · exact (C9_as_u64_spec _ (BufferView.borrowed [1, 2, 3]) (by decide)).2 (by decide)
